import Mathlib

/-!
Verification development for the IoT data-collector service
(src/collector/collector.py): a shallow embedding of the buffered
ingestion pipeline — reading validation, quality classification,
raw append log, ingestion buffer, batch flush, and the startup
connection supervisors — together with theorems settling the
specification claims about it.

Modelling conventions:
* Python floats are the `PyFloat` type: finite values as exact `Rat`
  (idealising the decimal and exponent literals of this pipeline to
  exact rationals; no claim depends on floating-point rounding), plus
  the distinguished `inf`, `neginf` and `nan` values with IEEE-754
  comparison semantics, since pydantic float coercion accepts them.
* Wall-clock instants of the intake loop are modelled as `Int` seconds.
* Validated timestamps are the `PyDatetime` type: the calendar/time
  fields parsed by `datetime.fromisoformat` (grammar as documented for
  CPython through 3.10, the format `datetime.isoformat` emits, which
  is what this repository's generator produces), or the numeric Unix
  epoch that pydantic lax datetime coercion accepts from a JSON number.
* The JSON payload of a message is modelled as a finite key/value
  mapping `List (String × Json)`; a message whose body cannot be
  decoded at all is `none`.
* Fallible external effects (raw-file write, database insert/commit)
  are driven by explicit fault flags, and Python exceptions become
  `Except` values; the `try/except` blocks of the source become
  explicit handlers.
-/

/-- JSON scalar values as they occur in inbound sensor payloads. -/
inductive Json where
  | jnum (q : Rat)
  | jstr (s : String)
  | jnull
deriving Repr, DecidableEq

/-- `true` iff every character of the list is a decimal digit. -/
def allDigits : List Char → Bool
  | [] => true
  | c :: rest => c.isDigit && allDigits rest

/-- Value of a list of decimal digits read left to right. -/
def digitsToNat (cs : List Char) : Nat :=
  cs.foldl (fun a c => a * 10 + (c.toNat - 48)) 0

/-- Split a character list at the first dot, returning the part before
it and, when a dot is present, the part after it. -/
def splitDot : List Char → List Char × Option (List Char)
  | [] => ([], none)
  | '.' :: rest => ([], some rest)
  | c :: rest =>
      let p := splitDot rest
      (c :: p.1, p.2)

/-- Split a character list at the first `e`/`E`, returning the part
before it and, when one is present, the part after it. -/
def splitExp : List Char → List Char × Option (List Char)
  | [] => ([], none)
  | c :: rest =>
      if c = 'e' ∨ c = 'E' then ([], some rest)
      else
        let p := splitExp rest
        (c :: p.1, p.2)

/-- A Python float value: a finite value (idealised as an exact
rational), one of the two infinities, or NaN. -/
inductive PyFloat where
  | finite (q : Rat)
  | inf
  | neginf
  | nan
deriving Repr, DecidableEq

/-- Strict order on Python floats, IEEE-754 style: NaN is unordered
against everything (all comparisons false). -/
def PyFloat.blt : PyFloat → PyFloat → Bool
  | .finite a, .finite b => decide (a < b)
  | .finite _, .inf => true
  | .neginf, .finite _ => true
  | .neginf, .inf => true
  | _, _ => false

/-- Non-strict order on Python floats, IEEE-754 style: NaN is unordered
against everything (all comparisons false). -/
def PyFloat.ble : PyFloat → PyFloat → Bool
  | .finite a, .finite b => decide (a ≤ b)
  | .finite _, .inf => true
  | .neginf, .finite _ => true
  | .neginf, .inf => true
  | .neginf, .neginf => true
  | .inf, .inf => true
  | _, _ => false

instance : LT PyFloat := ⟨fun a b => PyFloat.blt a b = true⟩

instance (a b : PyFloat) : Decidable (a < b) :=
  inferInstanceAs (Decidable (_ = true))

instance : LE PyFloat := ⟨fun a b => PyFloat.ble a b = true⟩

instance (a b : PyFloat) : Decidable (a ≤ b) :=
  inferInstanceAs (Decidable (_ = true))

instance (n : Nat) : OfNat PyFloat n := ⟨.finite n⟩

/-- Lowercase every character (for the case-insensitive special float
words). -/
def toLowerList (cs : List Char) : List Char := cs.map Char.toLower

/-- Pydantic str-to-float coercion of the `value` field (Rust float
parsing, as CPython `float(str)` without whitespace trimming and digit
underscores, which this pipeline never produces): an optional sign
followed by `inf`/`infinity`/`nan` (case-insensitive) or a decimal
literal `digits [. digits]` / `. digits` with an optional
`e/E [sign] digits` exponent. `"22.5"` parses to the rational 45/2,
`"1e5"` to 100000, `"inf"`/`"nan"` to the special values; a string
outside this grammar is rejected. -/
def pyFloatOfString (s : String) : Option PyFloat :=
  let cs0 := s.toList
  let neg : Bool := cs0.head? == some '-'
  let cs := match cs0 with
    | '-' :: rest => rest
    | '+' :: rest => rest
    | rest => rest
  let low := toLowerList cs
  if low = "inf".toList ∨ low = "infinity".toList then
    some (if neg then .neginf else .inf)
  else if low = "nan".toList then some .nan
  else
    let pe := splitExp cs
    let pm := splitDot pe.1
    let fp := pm.2.getD []
    let mantOk : Bool := match pm.2 with
      | none => !pm.1.isEmpty && allDigits pm.1
      | some fpart =>
          (!pm.1.isEmpty || !fpart.isEmpty) && allDigits pm.1 && allDigits fpart
    let mantNum : Nat := digitsToNat pm.1 * 10 ^ fp.length + digitsToNat fp
    let signed : Nat → Int := fun n => if neg then -(n : Int) else (n : Int)
    match pe.2 with
    | none =>
        if mantOk then some (.finite (mkRat (signed mantNum) (10 ^ fp.length)))
        else none
    | some ecs =>
        let eneg : Bool := ecs.head? == some '-'
        let eds := match ecs with
          | '-' :: rest => rest
          | '+' :: rest => rest
          | rest => rest
        if mantOk && !eds.isEmpty && allDigits eds then
          let e := digitsToNat eds
          if eneg then
            some (.finite (mkRat (signed mantNum) (10 ^ fp.length * 10 ^ e)))
          else
            some (.finite (mkRat (signed (mantNum * 10 ^ e)) (10 ^ fp.length)))
        else none

/-- The calendar and clock fields produced by a successful
`datetime.fromisoformat` parse, with the UTC offset (when present) in
total microseconds. -/
structure DateTimeParts where
  year : Nat
  month : Nat
  day : Nat
  hour : Nat
  minute : Nat
  second : Nat
  microsecond : Nat
  tzoffset : Option Int
deriving Repr, DecidableEq

/-- A validated timestamp as pydantic stores it: a datetime parsed
from ISO text by the `parse_timestamp` field validator
(collector.py:46-51), or the Unix epoch number that pydantic lax
datetime coercion accepts when the payload field is a JSON number
(the generator emits both shapes). -/
inductive PyDatetime where
  | parts (dt : DateTimeParts)
  | epoch (q : Rat)
deriving Repr, DecidableEq

/-- Gregorian leap year. -/
def isLeap (y : Nat) : Bool := (y % 4 = 0 && y % 100 ≠ 0) || y % 400 = 0

/-- Days in a month of the proleptic Gregorian calendar. -/
def daysInMonth (y m : Nat) : Nat :=
  if m = 2 then (if isLeap y then 29 else 28)
  else if m = 4 ∨ m = 6 ∨ m = 9 ∨ m = 11 then 30
  else 31

/-- Exactly two decimal digits, returning their value and the rest. -/
def digit2 : List Char → Option (Nat × List Char)
  | a :: b :: rest =>
      if a.isDigit && b.isDigit then
        some ((a.toNat - 48) * 10 + (b.toNat - 48), rest)
      else none
  | _ => none

/-- Exactly four decimal digits, returning their value and the rest. -/
def digit4 (cs : List Char) : Option (Nat × List Char) := do
  let (hi, r1) ← digit2 cs
  let (lo, r2) ← digit2 r1
  pure (hi * 100 + lo, r2)

/-- An optional fraction `.fff` or `.ffffff` (exactly 3 or 6 digits, as
`fromisoformat` requires), in microseconds; absent means zero and
consumes nothing. -/
def parseFracOpt : List Char → Option (Nat × List Char)
  | '.' :: rest =>
      let ds := rest.takeWhile Char.isDigit
      if ds.length = 3 then some (digitsToNat ds * 1000, rest.drop 3)
      else if ds.length = 6 then some (digitsToNat ds, rest.drop 6)
      else none
  | rest => some (0, rest)

/-- A time `HH[:MM[:SS[.fff[fff]]]]`, returning hour, minute, second,
microsecond and the unconsumed rest (range checks are the caller's). -/
def parseTime (cs : List Char) : Option (Nat × Nat × Nat × Nat × List Char) := do
  let (hh, r1) ← digit2 cs
  match r1 with
  | ':' :: r2 =>
      let (mm, r3) ← digit2 r2
      match r3 with
      | ':' :: r4 =>
          let (ss, r5) ← digit2 r4
          let (us, r6) ← parseFracOpt r5
          pure (hh, mm, ss, us, r6)
      | _ => pure (hh, mm, 0, 0, r3)
  | _ => pure (hh, 0, 0, 0, r1)

/-- A UTC offset tail `HH:MM[:SS[.ffffff]]` after its sign, which must
consume the whole rest; the offset magnitude must be strictly below 24
hours, as `datetime.timezone` enforces. Returns total microseconds. -/
def parseTzTail (neg : Bool) (cs : List Char) : Option Int := do
  let (hh, mm, ss, us, r) ← parseTime cs
  match r with
  | [] =>
      if cs.length ≥ 5 ∧ (hh * 3600 + mm * 60 + ss) * 1000000 + us < 86400000000 then
        let mag : Int := ((hh * 3600 + mm * 60 + ss) * 1000000 + us : Nat)
        some (if neg then -mag else mag)
      else none
  | _ => none

/-- `datetime.fromisoformat` (as the `parse_timestamp` validator calls
it, collector.py:46-51, after the `Z` replacement): the grammar
`YYYY-MM-DD[*HH[:MM[:SS[.fff[fff]]]][(+|-)HH:MM[:SS[.ffffff]]]]`
documented for CPython through 3.10 — the exact format
`datetime.isoformat` emits and this repository's generator publishes —
with calendar validation (month, day-in-month incl. leap years, year
at least 1) and clock validation (hour to 23, minute and second to
59, offset strictly below 24 hours). -/
def fromisoformat (cs : List Char) : Option DateTimeParts := do
  let (y, r1) ← digit4 cs
  match r1 with
  | '-' :: r2 =>
      let (mo, r3) ← digit2 r2
      match r3 with
      | '-' :: r4 =>
          let (d, r5) ← digit2 r4
          if 1 ≤ y ∧ 1 ≤ mo ∧ mo ≤ 12 ∧ 1 ≤ d ∧ d ≤ daysInMonth y mo then
            match r5 with
            | [] => pure ⟨y, mo, d, 0, 0, 0, 0, none⟩
            | _sep :: r6 =>
                let (hh, mm, ss, us, r7) ← parseTime r6
                if hh ≤ 23 ∧ mm ≤ 59 ∧ ss ≤ 59 then
                  match r7 with
                  | [] => pure ⟨y, mo, d, hh, mm, ss, us, none⟩
                  | '+' :: r8 =>
                      let off ← parseTzTail false r8
                      pure ⟨y, mo, d, hh, mm, ss, us, some off⟩
                  | '-' :: r8 =>
                      let off ← parseTzTail true r8
                      pure ⟨y, mo, d, hh, mm, ss, us, some off⟩
                  | _ => none
                else none
          else none
      | _ => none
  | _ => none

/-- The `v.replace('Z', '+00:00')` of `parse_timestamp`
(collector.py:50): every `Z` is replaced. -/
def replaceZ : List Char → List Char
  | [] => []
  | 'Z' :: rest => '+' :: '0' :: '0' :: ':' :: '0' :: '0' :: replaceZ rest
  | c :: rest => c :: replaceZ rest

/-- Validated sensor reading (class `SensorReading`, collector.py:39-51). -/
structure SensorReading where
  sensor_id : String
  timestamp : PyDatetime
  value : PyFloat
  unit : String
deriving Repr, DecidableEq

/-- Pydantic lax coercion into a `str` field: strings pass through,
nothing else is accepted. -/
def coerce_str : Json → Option String
  | .jstr s => some s
  | _ => none

/-- Pydantic lax coercion into the `float` field `value`: JSON numbers
pass through and numeric strings are coerced via `pyFloatOfString`;
anything else fails validation. -/
def coerce_float : Json → Option PyFloat
  | .jnum q => some (.finite q)
  | .jstr s => pyFloatOfString s
  | _ => none

/-- The `timestamp` field: a string goes through the `parse_timestamp`
field validator (collector.py:46-51) — `Z` replaced by `+00:00` and
parsed with `datetime.fromisoformat`, a parse failure becoming a
`ValidationError`; a JSON number is passed through by the validator
and accepted by pydantic lax datetime coercion as a Unix epoch;
anything else fails validation. -/
def coerce_timestamp : Json → Option PyDatetime
  | .jstr s => (fromisoformat (replaceZ s.toList)).map .parts
  | .jnum q => some (.epoch q)
  | _ => none

/-- A required string field: present and string-shaped. -/
def reqStr (p : List (String × Json)) (k : String) : Option String :=
  (p.lookup k).bind coerce_str

/-- A required float field: present and number-shaped (possibly a
coercible numeric string). -/
def reqFloat (p : List (String × Json)) (k : String) : Option PyFloat :=
  (p.lookup k).bind coerce_float

/-- The required `timestamp` field: present and datetime-shaped. -/
def reqTimestamp (p : List (String × Json)) : Option PyDatetime :=
  (p.lookup "timestamp").bind coerce_timestamp

/-- The Reading Validator (`SensorReading(**payload)` at
collector.py:123): requires all four fields `sensor_id`, `timestamp`,
`value`, `unit` to be present with the right shapes — the timestamp
parseable, the value numeric or numerically coercible — returning the
typed reading or `none` for a pydantic `ValidationError`. -/
def validate (p : List (String × Json)) : Option SensorReading := do
  let sid ← reqStr p "sensor_id"
  let ts ← reqTimestamp p
  let v ← reqFloat p "value"
  let u ← reqStr p "unit"
  pure ⟨sid, ts, v, u⟩

/-- Declared valid range of a registered sensor (the `range` entry of
`sensors_metadata`, collector.py:104); the registry's min/max are
floats. -/
structure SensorRange where
  rmin : PyFloat
  rmax : PyFloat
deriving Repr, DecidableEq

/-- The Sensor Metadata Cache: sensor identity to declared range,
as loaded by `load_sensors_metadata` (collector.py:93-107). -/
abbrev MetaCache := List (String × SensorRange)

/-- The Quality Classifier (`check_data_quality`, collector.py:146-159):
no cache entry gives `unknown_sensor`; a value strictly outside the
declared `[min, max]` gives `out_of_range`; otherwise `valid`. -/
def check_data_quality (meta : MetaCache) (r : SensorReading) : String :=
  match meta.lookup r.sensor_id with
  | none => "unknown_sensor"
  | some m =>
      if r.value < m.rmin ∨ r.value > m.rmax then "out_of_range"
      else "valid"

/-- One row of the measurement sink, as prepared by the batch insert of
`flush_buffer` (collector.py:186-194). -/
structure Row where
  sensor_id : String
  timestamp : PyDatetime
  value : PyFloat
  quality_flag : String
deriving Repr, DecidableEq

/-- One line of the raw append log (`store_raw_message`,
collector.py:161-175); the receipt time is not modelled since no claim
depends on it. -/
structure RawEntry where
  topic : String
  payload : List (String × Json)
deriving Repr, DecidableEq

/-- The mutable state of a `DataCollector` instance that the intake
loop reads and writes (collector.py:55-62), together with the rows so
far committed to the measurement sink. -/
structure CollectorState where
  message_buffer : List (SensorReading × String)
  last_flush : Int
  raw_log : List RawEntry
  db_rows : List Row
deriving Repr, DecidableEq

/-- Configuration consumed by the pipeline: `BUFFER_SIZE` and
`FLUSH_INTERVAL` (collector.py:28-29, 60-62). -/
structure Config where
  buffer_size : Nat
  flush_interval : Int
deriving Repr, DecidableEq

/-- Fault injection for the external effects of one message:
whether the raw-file append succeeds, whether the database
insert/commit succeeds, and an optional unexpected exception raised
during buffering/flushing. -/
structure Faults where
  raw_ok : Bool
  db_ok : Bool
  unexpected : Option String
deriving Repr, DecidableEq

/-- Observable per-message effects, in the order they happen. -/
inductive Event where
  | validated
  | classified (flag : String)
  | buffer_append
  | raw_write (ok : Bool)
  | flush_attempt
  | flush_commit (n : Nat)
  | flush_rollback
  | caught (e : String)
deriving Repr, DecidableEq

/-- Row built from one buffered `(reading, quality_flag)` entry
(collector.py:186-194). -/
def rowOf (e : SensorReading × String) : Row :=
  ⟨e.1.sensor_id, e.1.timestamp, e.1.value, e.2⟩

/-- `flush_buffer` (collector.py:177-213): no-op on an empty buffer;
otherwise one multi-row insert of every buffered entry followed by a
commit; only on success are the buffer cleared and the last-flush
timestamp reset to now; on failure the transaction is rolled back and
the state is untouched. -/
def flush_buffer (db_ok : Bool) (now : Int) (s : CollectorState) :
    CollectorState × List Event :=
  if s.message_buffer.isEmpty then (s, [])
  else if db_ok then
    ({ s with db_rows := s.db_rows ++ s.message_buffer.map rowOf,
              message_buffer := [],
              last_flush := now },
     [.flush_commit s.message_buffer.length])
  else
    (s, [.flush_rollback])

/-- `store_raw_message` (collector.py:161-175): append one JSONL record;
a write failure is caught inside and only logged, so the function never
raises and leaves everything but the raw log alone. -/
def store_raw_message (raw_ok : Bool) (topic : String)
    (payload : List (String × Json)) (s : CollectorState) :
    CollectorState × List Event :=
  (if raw_ok then { s with raw_log := s.raw_log ++ [⟨topic, payload⟩] } else s,
   [.raw_write raw_ok])

/-- The body of the `try` block of `on_message` (collector.py:120-137);
may raise. An `.error` carries the exception text together with the
state and events already produced when the exception escapes, matching
Python semantics where earlier mutations persist. The fixed order of
effects is: decode, Validator, Quality Classifier, append to the
Ingestion Buffer, Raw Append Log, flush-trigger evaluation,
(conditionally) Batch Writer. -/
def process_message (cfg : Config) (meta : MetaCache) (f : Faults)
    (now : Int) (topic : String) (msg : Option (List (String × Json)))
    (s : CollectorState) :
    Except (String × CollectorState × List Event) (CollectorState × List Event) :=
  match msg with
  | none => .error ("JSONDecodeError", s, [])
  | some payload =>
    match validate payload with
    | none => .error ("ValidationError", s, [])
    | some reading =>
      let flag := check_data_quality meta reading
      let s1 := { s with message_buffer := s.message_buffer ++ [(reading, flag)] }
      let r2 := store_raw_message f.raw_ok topic payload s1
      let ev0 := [.validated, .classified flag, .buffer_append] ++ r2.2
      match f.unexpected with
      | some e => .error (e, r2.1, ev0)
      | none =>
        if cfg.buffer_size ≤ r2.1.message_buffer.length ∨
           cfg.flush_interval ≤ now - r2.1.last_flush then
          let r3 := flush_buffer f.db_ok now r2.1
          .ok (r3.1, ev0 ++ [.flush_attempt] ++ r3.2)
        else
          .ok (r2.1, ev0)

/-- `on_message` (collector.py:118-144): the `try` body together with
its catch-all `except` handlers, which log the failure and return,
leaving the loop ready for the next message. -/
def on_message (cfg : Config) (meta : MetaCache) (f : Faults)
    (now : Int) (topic : String) (msg : Option (List (String × Json)))
    (s : CollectorState) : CollectorState × List Event :=
  match process_message cfg meta f now topic msg s with
  | .ok r => r
  | .error (e, se, ev) => (se, ev ++ [.caught e])

/-- One inbound broker delivery: topic, decoded body (`none` when the
body is not decodable), the fault environment, and the wall clock at
receipt. -/
structure InMsg where
  topic : String
  body : Option (List (String × Json))
  faults : Faults
  now : Int

/-- The Message Intake Loop in its `running` state: the broker client
delivers messages one at a time to `on_message` (collector.py:248). -/
def run_loop (cfg : Config) (meta : MetaCache) :
    List InMsg → CollectorState → CollectorState
  | [], s => s
  | m :: rest, s =>
      run_loop cfg meta rest (on_message cfg meta m.faults m.now m.topic m.body s).1

/-- Observable startup effects of the two connection supervisors. -/
inductive StartEvent where
  | db_attempt (i : Nat)
  | wait (secs : Nat)
  | db_connected
  | metadata_loaded (n : Nat)
  | mqtt_attempt (i : Nat)
  | mqtt_connected
  | intake_started
deriving Repr, DecidableEq

/-- The retry loop of `connect_db` (collector.py:67-91): up to `fuel`
further attempts starting at index `attempt`; `ok i` says whether
attempt `i` connects. A failed attempt waits the fixed 3-second delay
and retries; exhausting all attempts re-raises (`none`). On success the
Sensor Metadata Cache (`nsensors` registered sensors) is loaded at once,
before returning. -/
def connect_db_loop (ok : Nat → Bool) (nsensors : Nat) :
    Nat → Nat → Option (List StartEvent)
  | _, 0 => none
  | attempt, fuel + 1 =>
      if ok attempt then
        some [.db_attempt attempt, .db_connected, .metadata_loaded nsensors]
      else
        (connect_db_loop ok nsensors (attempt + 1) fuel).map
          (fun evs => .db_attempt attempt :: .wait 3 :: evs)

/-- `connect_db` (collector.py:67-91): `max_retries = 10`,
`retry_delay = 3`. -/
def connect_db (ok : Nat → Bool) (nsensors : Nat) : Option (List StartEvent) :=
  connect_db_loop ok nsensors 0 10

/-- The retry loop of `setup_mqtt` (collector.py:215-235), the same
pattern as `connect_db_loop` without the metadata load. -/
def setup_mqtt_loop (ok : Nat → Bool) : Nat → Nat → Option (List StartEvent)
  | _, 0 => none
  | attempt, fuel + 1 =>
      if ok attempt then
        some [.mqtt_attempt attempt, .mqtt_connected]
      else
        (setup_mqtt_loop ok (attempt + 1) fuel).map
          (fun evs => .mqtt_attempt attempt :: .wait 3 :: evs)

/-- `setup_mqtt` (collector.py:215-235): `max_retries = 10`,
`retry_delay = 3`. -/
def setup_mqtt (ok : Nat → Bool) : Option (List StartEvent) :=
  setup_mqtt_loop ok 0 10

/-- `run` (collector.py:237-248): connect to the store (which loads the
metadata cache), then to the broker, then start the intake loop; a
`none` from either supervisor propagates and is fatal. -/
def run_startup (db_ok mq_ok : Nat → Bool) (nsensors : Nat) :
    Option (List StartEvent) :=
  match connect_db db_ok nsensors with
  | none => none
  | some ev1 =>
    match setup_mqtt mq_ok with
    | none => none
    | some ev2 => some (ev1 ++ ev2 ++ [.intake_started])

/-- Index of the first occurrence of an element in a list. -/
def idxOf {α : Type} [DecidableEq α] : List α → α → Option Nat
  | [], _ => none
  | x :: xs, a => if x = a then some 0 else (idxOf xs a).map (· + 1)

/-- `true` iff both elements occur in the list and the first occurrence
of `a` is strictly before the first occurrence of `b`. -/
def precedesB {α : Type} [DecidableEq α] (l : List α) (a b : α) : Bool :=
  match idxOf l a, idxOf l b with
  | some i, some j => decide (i < j)
  | _, _ => false

/-- A well-formed sample payload, as produced by the generator. -/
def samplePayload : List (String × Json) :=
  [("sensor_id", .jstr "temp-1"), ("timestamp", .jstr "2024-01-01T00:00:00Z"),
   ("value", .jnum 22), ("unit", .jstr "C")]

/-- A one-sensor metadata cache: `temp-1` with range [0, 40]. -/
def sampleMeta : MetaCache := [("temp-1", ⟨0, 40⟩)]

/-- The collector state at process start (collector.py:55-62): empty
buffer, last flush at construction time (taken as 0). -/
def initState : CollectorState := ⟨[], 0, [], []⟩

/-- The parsed form of the sample timestamp "2024-01-01T00:00:00Z". -/
def sampleInstant : PyDatetime := .parts ⟨2024, 1, 1, 0, 0, 0, 0, some 0⟩

/-- The reading `samplePayload` validates to. -/
def sampleReading : SensorReading := ⟨"temp-1", sampleInstant, 22, "C"⟩

/-- Normal form of `on_message` on a message that decodes and validates,
with no unexpected exception injected: classify, append to the buffer,
append to the raw log (if the raw write succeeds), then evaluate the
two flush triggers and conditionally flush. -/
theorem on_message_valid (cfg : Config) (meta : MetaCache) (raw db : Bool)
    (now : Int) (topic : String) (p : List (String × Json))
    (s : CollectorState) (r : SensorReading) (hv : validate p = some r) :
    on_message cfg meta ⟨raw, db, none⟩ now topic (some p) s =
      (let flag := check_data_quality meta r
       let s2 : CollectorState :=
         { s with message_buffer := s.message_buffer ++ [(r, flag)],
                  raw_log := if raw then s.raw_log ++ [⟨topic, p⟩] else s.raw_log }
       let ev0 : List Event :=
         [.validated, .classified flag, .buffer_append, .raw_write raw]
       if cfg.buffer_size ≤ s.message_buffer.length + 1 ∨
          cfg.flush_interval ≤ now - s.last_flush then
         ((flush_buffer db now s2).1, ev0 ++ [.flush_attempt] ++ (flush_buffer db now s2).2)
       else (s2, ev0)) := by
  unfold on_message process_message store_raw_message
  cases raw <;>
    simp only [hv, List.length_append, List.length_cons, List.length_nil,
      Nat.zero_add, Bool.false_eq_true, if_false, eq_self_iff_true, if_true] <;>
    split_ifs <;> rfl

/-- An empty buffer makes `flush_buffer` a no-op (collector.py:179-180). -/
theorem flush_buffer_empty (db_ok : Bool) (now : Int) (s : CollectorState)
    (h : s.message_buffer = []) : flush_buffer db_ok now s = (s, []) := by
  simp [flush_buffer, h]

/-- A successful flush of a non-empty buffer: one batch of rows is
committed, the buffer is cleared, the last-flush timestamp is reset. -/
theorem flush_buffer_success (now : Int) (s : CollectorState)
    (h : s.message_buffer ≠ []) :
    flush_buffer true now s =
      ({ s with db_rows := s.db_rows ++ s.message_buffer.map rowOf,
                message_buffer := [], last_flush := now },
       [.flush_commit s.message_buffer.length]) := by
  simp [flush_buffer, h]

/-- A failed flush of a non-empty buffer: rollback, state untouched. -/
theorem flush_buffer_failure (now : Int) (s : CollectorState)
    (h : s.message_buffer ≠ []) :
    flush_buffer false now s = (s, [.flush_rollback]) := by
  simp [flush_buffer, h]

/-- Claim C2: the flush operation is a no-op on an empty buffer; a
successful commit clears the buffer entirely and resets the last-flush
timestamp to now; any insert/commit failure rolls the transaction back
and leaves the buffer's length and contents completely unchanged, so
exactly the same entries are included in the next flush attempt. -/
theorem c2_flush_buffer (db_ok : Bool) (now now2 : Int) (s : CollectorState) :
    (s.message_buffer = [] → flush_buffer db_ok now s = (s, [])) ∧
    (s.message_buffer ≠ [] → db_ok = true →
       flush_buffer db_ok now s =
         ({ s with db_rows := s.db_rows ++ s.message_buffer.map rowOf,
                   message_buffer := [], last_flush := now },
          [.flush_commit s.message_buffer.length])) ∧
    (db_ok = false → (flush_buffer db_ok now s).1 = s) ∧
    (s.message_buffer ≠ [] → db_ok = false →
       (flush_buffer true now2 (flush_buffer db_ok now s).1).1.db_rows =
         s.db_rows ++ s.message_buffer.map rowOf) := by
  refine ⟨fun h => flush_buffer_empty db_ok now s h, fun h hdb => ?_, fun hdb => ?_,
    fun h hdb => ?_⟩
  · subst hdb; exact flush_buffer_success now s h
  · subst hdb
    by_cases h : s.message_buffer = []
    · rw [flush_buffer_empty false now s h]
    · rw [flush_buffer_failure now s h]
  · subst hdb
    rw [flush_buffer_failure now s h, flush_buffer_success now2 s h]

/-- Witness for C2 at concrete states: an empty-buffer flush is a
no-op; a failed flush leaves the one-entry state untouched and a later
successful flush commits exactly that entry; a successful flush
commits it directly. -/
theorem c2_flush_buffer_witness :
    flush_buffer true 9 initState = (initState, []) ∧
    (flush_buffer false 9 ⟨[(⟨"temp-1", sampleInstant, 22, "C"⟩, "valid")], 0, [], []⟩).1 =
      ⟨[(⟨"temp-1", sampleInstant, 22, "C"⟩, "valid")], 0, [], []⟩ ∧
    (flush_buffer true 9 (flush_buffer false 7
        ⟨[(⟨"temp-1", sampleInstant, 22, "C"⟩, "valid")], 0, [], []⟩).1).1.db_rows =
      [⟨"temp-1", sampleInstant, 22, "valid"⟩] := by
  refine ⟨(c2_flush_buffer true 9 9 initState).1 rfl, ?_, ?_⟩
  · exact (c2_flush_buffer false 9 9
      ⟨[(⟨"temp-1", sampleInstant, 22, "C"⟩, "valid")], 0, [], []⟩).2.2.1 rfl
  · exact (c2_flush_buffer false 7 9
      ⟨[(⟨"temp-1", sampleInstant, 22, "C"⟩, "valid")], 0, [], []⟩).2.2.2 (by decide) rfl

/-- On Python floats a non-strict bound forbids the reversed strict
comparison; NaN operands satisfy no bound at all. -/
theorem PyFloat.not_lt_of_le {a b : PyFloat} (h : a ≤ b) : ¬ b < a := by
  intro hc
  cases a <;> cases b <;>
    simp [LE.le, LT.lt, PyFloat.ble, PyFloat.blt] at h hc
  simp [h] at hc

/-- Claim C4: the Quality Classifier is a pure total function of the
reading and the metadata cache (it is a Lean function, so purity and
totality hold by construction): no cache entry for the sensor identity
gives `unknown_sensor` regardless of the value; a value strictly
outside [min, max] gives `out_of_range`; boundary values inclusive
give `valid`. -/
theorem c4_quality_classifier (meta : MetaCache) (r : SensorReading) :
    (meta.lookup r.sensor_id = none →
       check_data_quality meta r = "unknown_sensor") ∧
    (∀ m, meta.lookup r.sensor_id = some m →
       ((r.value < m.rmin ∨ r.value > m.rmax) →
          check_data_quality meta r = "out_of_range") ∧
       (m.rmin ≤ r.value → r.value ≤ m.rmax →
          check_data_quality meta r = "valid")) := by
  refine ⟨fun h => by simp [check_data_quality, h], fun m hm => ⟨fun hout => ?_, fun h1 h2 => ?_⟩⟩
  · simp only [check_data_quality, hm]
    exact if_pos hout
  · simp only [check_data_quality, hm]
    exact if_neg (fun hc => hc.elim (fun hlt => absurd hlt (PyFloat.not_lt_of_le h1))
      (fun hgt => absurd hgt (PyFloat.not_lt_of_le h2)))

/-- Witness for C4 on a sensor with range [10, 30]: value 45 is
`out_of_range`, value 20 is `valid`, boundary 30 is `valid`, and an
identity absent from the cache is `unknown_sensor`. -/
theorem c4_quality_classifier_witness :
    check_data_quality [("temp-1", ⟨10, 30⟩)] ⟨"temp-1", sampleInstant, 45, "C"⟩ = "out_of_range" ∧
    check_data_quality [("temp-1", ⟨10, 30⟩)] ⟨"temp-1", sampleInstant, 20, "C"⟩ = "valid" ∧
    check_data_quality [("temp-1", ⟨10, 30⟩)] ⟨"temp-1", sampleInstant, 30, "C"⟩ = "valid" ∧
    check_data_quality [("temp-1", ⟨10, 30⟩)] ⟨"ghost", sampleInstant, 20, "C"⟩ = "unknown_sensor" := by
  refine ⟨?_, ?_, ?_, ?_⟩
  · exact ((c4_quality_classifier [("temp-1", ⟨10, 30⟩)] ⟨"temp-1", sampleInstant, 45, "C"⟩).2
      ⟨10, 30⟩ (by decide)).1 (by decide)
  · exact ((c4_quality_classifier [("temp-1", ⟨10, 30⟩)] ⟨"temp-1", sampleInstant, 20, "C"⟩).2
      ⟨10, 30⟩ (by decide)).2 (by decide) (by decide)
  · exact ((c4_quality_classifier [("temp-1", ⟨10, 30⟩)] ⟨"temp-1", sampleInstant, 30, "C"⟩).2
      ⟨10, 30⟩ (by decide)).2 (by decide) (by decide)
  · exact (c4_quality_classifier [("temp-1", ⟨10, 30⟩)] ⟨"ghost", sampleInstant, 20, "C"⟩).1 (by decide)

/-- Claim C1 is false on the code: at a concrete validated message the
buffer append happens before the raw append-log write, not after it —
`precedesB` of the raw-write effect before the buffer-append effect is
`false` (indeed the reverse order holds, as `c1_effect_order` shows). -/
theorem c1_counterexample :
    precedesB (on_message ⟨100, 5⟩ sampleMeta ⟨true, true, none⟩ 0 "sensors/temp-1"
        (some samplePayload) initState).2
      (Event.raw_write true) Event.buffer_append = false := by decide

/-- Claim C1 (amended): for every inbound message that decodes and
validates, the fixed per-message order of effects is Validator, then
Quality Classifier, then append to the Ingestion Buffer, then Raw
Append Log, then flush-trigger evaluation. -/
theorem c1_effect_order (cfg : Config) (meta : MetaCache) (raw db : Bool)
    (now : Int) (topic : String) (p : List (String × Json)) (s : CollectorState)
    (r : SensorReading) (hv : validate p = some r) :
    ∃ tail,
      (on_message cfg meta ⟨raw, db, none⟩ now topic (some p) s).2 =
        [.validated, .classified (check_data_quality meta r), .buffer_append,
         .raw_write raw] ++ tail ∧
      (tail = [] ∨ tail.head? = some .flush_attempt) := by
  rw [on_message_valid cfg meta raw db now topic p s r hv]
  dsimp only
  cases raw <;> split_ifs with h <;>
    first
      | exact ⟨[], rfl, Or.inl rfl⟩
      | exact ⟨Event.flush_attempt :: _, rfl, Or.inr rfl⟩

/-- Witness for the amended C1 at a concrete message: the event list
starts with validated, classified, buffer append, raw write. -/
theorem c1_effect_order_witness :
    ∃ tail,
      (on_message ⟨100, 5⟩ sampleMeta ⟨true, true, none⟩ 0 "sensors/temp-1"
          (some samplePayload) initState).2 =
        [.validated, .classified "valid", .buffer_append, .raw_write true] ++ tail ∧
      (tail = [] ∨ tail.head? = some .flush_attempt) := by
  have h := c1_effect_order ⟨100, 5⟩ sampleMeta true true 0 "sensors/temp-1"
    samplePayload initState sampleReading (by decide)
  simpa using h

/-- Claim C3: after a validated message is appended, a flush attempt is
triggered if and only if the buffer length reaches the size threshold
or the wall-clock time since the last successful flush reaches the
configured interval; either condition alone suffices. -/
theorem c3_flush_triggers (cfg : Config) (meta : MetaCache) (raw db : Bool)
    (now : Int) (topic : String) (p : List (String × Json)) (s : CollectorState)
    (r : SensorReading) (hv : validate p = some r) :
    (Event.flush_attempt ∈ (on_message cfg meta ⟨raw, db, none⟩ now topic (some p) s).2 ↔
      (cfg.buffer_size ≤ s.message_buffer.length + 1 ∨
       cfg.flush_interval ≤ now - s.last_flush)) := by
  rw [on_message_valid cfg meta raw db now topic p s r hv]
  dsimp only
  by_cases h : cfg.buffer_size ≤ s.message_buffer.length + 1 ∨
      cfg.flush_interval ≤ now - s.last_flush
  · rw [if_pos h]
    simp [h]
  · rw [if_neg h]
    exact iff_of_false (by simp) h

/-- Witness for C3: with size threshold 100 far from met (empty buffer)
but the 5-second interval elapsed (now = 6, last flush at 0), the
single appended message triggers a flush attempt. -/
theorem c3_flush_triggers_witness :
    ¬ (100 ≤ initState.message_buffer.length + 1) ∧
    Event.flush_attempt ∈ (on_message ⟨100, 5⟩ sampleMeta ⟨true, true, none⟩ 6
      "sensors/temp-1" (some samplePayload) initState).2 := by
  refine ⟨by decide, ?_⟩
  exact (c3_flush_triggers ⟨100, 5⟩ sampleMeta true true 6 "sensors/temp-1"
    samplePayload initState sampleReading
    (by decide)).mpr (Or.inr (by decide))

/-- Validation succeeds exactly when all four required fields are
present with the right shapes, and the reading is assembled from their
coerced values. -/
theorem validate_eq_some_iff (p : List (String × Json)) (r : SensorReading) :
    validate p = some r ↔
      reqStr p "sensor_id" = some r.sensor_id ∧
      reqTimestamp p = some r.timestamp ∧
      reqFloat p "value" = some r.value ∧
      reqStr p "unit" = some r.unit := by
  cases h1 : reqStr p "sensor_id" <;> cases h2 : reqTimestamp p <;>
    cases h3 : reqFloat p "value" <;> cases h4 : reqStr p "unit" <;>
      simp only [validate, h1, h2, h3, h4, Option.bind_eq_bind, Option.none_bind,
        Option.some_bind, pure, Option.some.injEq, reduceCtorEq, false_and,
        and_false, iff_false, not_false_iff, false_iff, not_and]
  · cases r
    simp [SensorReading.mk.injEq]

/-- Claim C5: a payload missing any of `sensor_id`, `timestamp`,
`value`, `unit`, or whose `value` is a non-numeric string, or whose
body cannot be decoded, is rejected before classification and dropped:
the collector state — Ingestion Buffer and raw log included — is
completely unchanged. -/
theorem c5_rejected_dropped (cfg : Config) (meta : MetaCache) (f : Faults)
    (now : Int) (topic : String) (msg : Option (List (String × Json)))
    (s : CollectorState)
    (h : msg = none ∨ ∃ p, msg = some p ∧
       (p.lookup "sensor_id" = none ∨ p.lookup "timestamp" = none ∨
        p.lookup "value" = none ∨ p.lookup "unit" = none ∨
        ∃ vs, p.lookup "value" = some (.jstr vs) ∧ pyFloatOfString vs = none)) :
    (on_message cfg meta f now topic msg s).1 = s ∧
    (on_message cfg meta f now topic msg s).1.message_buffer = s.message_buffer ∧
    (on_message cfg meta f now topic msg s).1.raw_log = s.raw_log := by
  have hstate : (on_message cfg meta f now topic msg s).1 = s := by
    rcases h with rfl | ⟨p, rfl, hbad⟩
    · rfl
    · have hv : validate p = none := by
        cases hval : validate p with
        | none => rfl
        | some r =>
          exfalso
          have hc := (validate_eq_some_iff p r).mp hval
          rcases hbad with h1 | h1 | h1 | h1 | ⟨vs, h1, h2⟩
          · simp [reqStr, h1] at hc
          · simp [reqTimestamp, h1] at hc
          · simp [reqFloat, h1] at hc
          · simp [reqStr, h1] at hc
          · simp [reqFloat, coerce_float, h1, h2] at hc
      simp [on_message, process_message, hv]
  exact ⟨hstate, by rw [hstate], by rw [hstate]⟩

/-- Witness for C5: a payload with no `unit` field, a payload whose
`value` is the non-numeric string "abc", and an undecodable body all
leave the collector state untouched. -/
theorem c5_rejected_dropped_witness :
    (on_message ⟨100, 5⟩ sampleMeta ⟨true, true, none⟩ 0 "t"
       (some [("sensor_id", .jstr "temp-1"), ("timestamp", .jstr "T"),
              ("value", .jnum 22)]) initState).1 = initState ∧
    (on_message ⟨100, 5⟩ sampleMeta ⟨true, true, none⟩ 0 "t"
       (some [("sensor_id", .jstr "temp-1"), ("timestamp", .jstr "T"),
              ("value", .jstr "abc"), ("unit", .jstr "C")]) initState).1 = initState ∧
    (on_message ⟨100, 5⟩ sampleMeta ⟨true, true, none⟩ 0 "t" none initState).1 =
      initState := by
  refine ⟨?_, ?_, ?_⟩
  · exact (c5_rejected_dropped ⟨100, 5⟩ sampleMeta ⟨true, true, none⟩ 0 "t" _ initState
      (Or.inr ⟨_, rfl, Or.inr (Or.inr (Or.inr (Or.inl (by decide))))⟩)).1
  · exact (c5_rejected_dropped ⟨100, 5⟩ sampleMeta ⟨true, true, none⟩ 0 "t" _ initState
      (Or.inr ⟨_, rfl, Or.inr (Or.inr (Or.inr (Or.inr ⟨"abc", by decide, by decide⟩)))⟩)).1
  · exact (c5_rejected_dropped ⟨100, 5⟩ sampleMeta ⟨true, true, none⟩ 0 "t" none initState
      (Or.inl rfl)).1

/-- Claim C9 (implicit): a payload whose `value` field is a string is
accepted (all other fields being well-shaped) exactly when the string
parses as a number under Python float coercion — decimal and exponent
literals, `inf`/`infinity`/`nan` in any case, with an optional sign —
in which case the resulting reading carries the coerced float; so
numeric strings such as "22.5" are accepted and only strings outside
that grammar are rejected. -/
theorem c9_numeric_string_value (p : List (String × Json)) (sid : String)
    (jts : Json) (ts : PyDatetime) (vs u : String)
    (h1 : p.lookup "sensor_id" = some (.jstr sid))
    (h2 : p.lookup "timestamp" = some jts)
    (ht : coerce_timestamp jts = some ts)
    (h3 : p.lookup "value" = some (.jstr vs))
    (h4 : p.lookup "unit" = some (.jstr u)) :
    validate p = (pyFloatOfString vs).map (fun q => ⟨sid, ts, q, u⟩) := by
  cases hq : pyFloatOfString vs <;>
    simp [validate, reqStr, reqFloat, reqTimestamp, coerce_str, coerce_float,
      h1, h2, ht, h3, h4, hq]

/-- Witness for C9: with a well-formed ISO timestamp, the numeric
string "22.5" validates to a reading with value 45/2, "1e5" to 100000,
"inf" to positive infinity, and the non-numeric string "abc" is
rejected. -/
theorem c9_numeric_string_value_witness :
    validate [("sensor_id", .jstr "temp-1"),
              ("timestamp", .jstr "2024-01-01T00:00:00Z"),
              ("value", .jstr "22.5"), ("unit", .jstr "C")] =
      some ⟨"temp-1", sampleInstant, .finite (mkRat 45 2), "C"⟩ ∧
    validate [("sensor_id", .jstr "temp-1"),
              ("timestamp", .jstr "2024-01-01T00:00:00Z"),
              ("value", .jstr "1e5"), ("unit", .jstr "C")] =
      some ⟨"temp-1", sampleInstant, .finite 100000, "C"⟩ ∧
    validate [("sensor_id", .jstr "temp-1"),
              ("timestamp", .jstr "2024-01-01T00:00:00Z"),
              ("value", .jstr "inf"), ("unit", .jstr "C")] =
      some ⟨"temp-1", sampleInstant, .inf, "C"⟩ ∧
    validate [("sensor_id", .jstr "temp-1"),
              ("timestamp", .jstr "2024-01-01T00:00:00Z"),
              ("value", .jstr "abc"), ("unit", .jstr "C")] = none := by
  refine ⟨?_, ?_, ?_, ?_⟩
  · rw [c9_numeric_string_value _ "temp-1" (.jstr "2024-01-01T00:00:00Z")
      sampleInstant "22.5" "C" (by decide) (by decide) (by decide) (by decide)
      (by decide)]
    decide
  · rw [c9_numeric_string_value _ "temp-1" (.jstr "2024-01-01T00:00:00Z")
      sampleInstant "1e5" "C" (by decide) (by decide) (by decide) (by decide)
      (by decide)]
    decide
  · rw [c9_numeric_string_value _ "temp-1" (.jstr "2024-01-01T00:00:00Z")
      sampleInstant "inf" "C" (by decide) (by decide) (by decide) (by decide)
      (by decide)]
    decide
  · rw [c9_numeric_string_value _ "temp-1" (.jstr "2024-01-01T00:00:00Z")
      sampleInstant "abc" "C" (by decide) (by decide) (by decide) (by decide)
      (by decide)]
    decide

/-- Claim C7: the Ingestion Buffer is an ordered sequence in arrival
order — each append places the new entry at the end, leaving the prefix
untouched — and every flush issues exactly one multi-row insert with
one row per buffered entry (`rowOf`), rows in exactly the buffer's
order. -/
theorem c7_order_preserved (cfg : Config) (meta : MetaCache) (raw db : Bool)
    (now : Int) (topic : String) (p : List (String × Json)) (s : CollectorState)
    (r : SensorReading) (hv : validate p = some r) :
    (s.message_buffer ≠ [] →
       (flush_buffer true now s).2 = [.flush_commit s.message_buffer.length] ∧
       (flush_buffer true now s).1.db_rows = s.db_rows ++ s.message_buffer.map rowOf) ∧
    (¬ (cfg.buffer_size ≤ s.message_buffer.length + 1 ∨
        cfg.flush_interval ≤ now - s.last_flush) →
       (on_message cfg meta ⟨raw, db, none⟩ now topic (some p) s).1.message_buffer =
         s.message_buffer ++ [(r, check_data_quality meta r)]) ∧
    ((cfg.buffer_size ≤ s.message_buffer.length + 1 ∨
      cfg.flush_interval ≤ now - s.last_flush) → db = true →
       (on_message cfg meta ⟨raw, db, none⟩ now topic (some p) s).1.db_rows =
         s.db_rows ++ (s.message_buffer ++ [(r, check_data_quality meta r)]).map rowOf ∧
       (on_message cfg meta ⟨raw, db, none⟩ now topic (some p) s).1.message_buffer =
         []) := by
  refine ⟨fun hne => ?_, fun hno => ?_, fun hyes hdb => ?_⟩
  · rw [flush_buffer_success now s hne]
    exact ⟨rfl, rfl⟩
  · rw [on_message_valid cfg meta raw db now topic p s r hv]
    dsimp only
    rw [if_neg hno]
  · subst hdb
    rw [on_message_valid cfg meta raw true now topic p s r hv]
    dsimp only
    rw [if_pos hyes,
      flush_buffer_success now _ (by simp)]
    exact ⟨rfl, rfl⟩

/-- Witness for C7 at a concrete one-entry state and message: the
append keeps arrival order, and a size-1-triggered flush commits the
two rows in arrival order. -/
theorem c7_order_preserved_witness :
    (on_message ⟨100, 50⟩ sampleMeta ⟨true, true, none⟩ 1 "t" (some samplePayload)
       ⟨[(⟨"a", PyDatetime.epoch 0, 1, "C"⟩, "unknown_sensor")], 0, [], []⟩).1.message_buffer =
      [(⟨"a", PyDatetime.epoch 0, 1, "C"⟩, "unknown_sensor"),
       (sampleReading, "valid")] ∧
    (on_message ⟨2, 50⟩ sampleMeta ⟨true, true, none⟩ 1 "t" (some samplePayload)
       ⟨[(⟨"a", PyDatetime.epoch 0, 1, "C"⟩, "unknown_sensor")], 0, [], []⟩).1.db_rows =
      [⟨"a", PyDatetime.epoch 0, 1, "unknown_sensor"⟩,
       ⟨"temp-1", sampleInstant, 22, "valid"⟩] := by
  constructor
  · exact (c7_order_preserved ⟨100, 50⟩ sampleMeta true true 1 "t" samplePayload
      ⟨[(⟨"a", PyDatetime.epoch 0, 1, "C"⟩, "unknown_sensor")], 0, [], []⟩
      sampleReading (by decide)).2.1 (by decide)
  · exact ((c7_order_preserved ⟨2, 50⟩ sampleMeta true true 1 "t" samplePayload
      ⟨[(⟨"a", PyDatetime.epoch 0, 1, "C"⟩, "unknown_sensor")], 0, [], []⟩
      sampleReading (by decide)).2.2
      (Or.inl (by decide)) rfl).1

/-- Claim C10 (implicit): a failed flush leaves the last-flush
timestamp unchanged as well as the buffer, so the time trigger, once
satisfied, stays satisfied at any later instant; consequently every
subsequently processed valid message triggers a new flush attempt
(here with the store still failing, a rollback again) until one
succeeds. -/
theorem c10_failed_flush_persistence (cfg : Config) (meta : MetaCache) (raw : Bool)
    (now : Int) (topic : String) (p : List (String × Json)) (s : CollectorState)
    (r : SensorReading) (hv : validate p = some r)
    (htrig : cfg.flush_interval ≤ now - s.last_flush) :
    ((on_message cfg meta ⟨raw, false, none⟩ now topic (some p) s).1.last_flush =
       s.last_flush) ∧
    ((on_message cfg meta ⟨raw, false, none⟩ now topic (some p) s).1.message_buffer =
       s.message_buffer ++ [(r, check_data_quality meta r)]) ∧
    (Event.flush_attempt ∈
       (on_message cfg meta ⟨raw, false, none⟩ now topic (some p) s).2) ∧
    (Event.flush_rollback ∈
       (on_message cfg meta ⟨raw, false, none⟩ now topic (some p) s).2) ∧
    (∀ now2, now ≤ now2 →
       cfg.flush_interval ≤
         now2 - (on_message cfg meta ⟨raw, false, none⟩ now topic (some p) s).1.last_flush) ∧
    (∀ raw2 topic2 p2 r2 now2, validate p2 = some r2 → now ≤ now2 →
       Event.flush_attempt ∈
         (on_message cfg meta ⟨raw2, false, none⟩ now2 topic2 (some p2)
           (on_message cfg meta ⟨raw, false, none⟩ now topic (some p) s).1).2) := by
  have hmain :
      on_message cfg meta ⟨raw, false, none⟩ now topic (some p) s =
        ({ s with
             message_buffer := s.message_buffer ++ [(r, check_data_quality meta r)],
             raw_log := if raw then s.raw_log ++ [⟨topic, p⟩] else s.raw_log },
         [.validated, .classified (check_data_quality meta r), .buffer_append,
          .raw_write raw, .flush_attempt, .flush_rollback]) := by
    rw [on_message_valid cfg meta raw false now topic p s r hv]
    dsimp only
    rw [if_pos (Or.inr htrig), flush_buffer_failure now _ (by simp)]
    rfl
  rw [hmain]
  refine ⟨rfl, rfl, by simp, by simp, fun now2 h2 => by dsimp only; omega, ?_⟩
  intro raw2 topic2 p2 r2 now2 hv2 h2
  rw [on_message_valid cfg meta raw2 false now2 topic2 p2 _ r2 hv2]
  dsimp only
  rw [if_pos (Or.inr (by omega))]
  simp

/-- Witness for C10: with the 5-second interval elapsed and the store
failing, the message at time 6 produces a rollback and leaves the
last-flush timestamp at 0. -/
theorem c10_failed_flush_persistence_witness :
    (on_message ⟨100, 5⟩ sampleMeta ⟨true, false, none⟩ 6 "t" (some samplePayload)
       initState).1.last_flush = 0 ∧
    Event.flush_rollback ∈ (on_message ⟨100, 5⟩ sampleMeta ⟨true, false, none⟩ 6 "t"
       (some samplePayload) initState).2 := by
  have h := c10_failed_flush_persistence ⟨100, 5⟩ sampleMeta true 6 "t" samplePayload
    initState sampleReading (by decide) (by decide)
  exact ⟨h.1, h.2.2.2.1⟩

/-- The batch flush reads and writes only the buffer, the last-flush
timestamp and the committed rows: the raw log plays no part in it. -/
theorem flush_buffer_raw_frame (db : Bool) (now : Int) (s : CollectorState)
    (l : List RawEntry) :
    (flush_buffer db now { s with raw_log := l }).1.message_buffer =
      (flush_buffer db now s).1.message_buffer ∧
    (flush_buffer db now { s with raw_log := l }).1.db_rows =
      (flush_buffer db now s).1.db_rows := by
  rw [flush_buffer, flush_buffer]
  by_cases h : s.message_buffer.isEmpty <;> cases db <;> simp [h]

/-- Claim C8: every exception escaping the `try` body — decode and
validation failures, the injected unexpected error during
buffering/flushing — is caught at the intake-loop level, logged, and
the handler returns a state so the loop continues with the next
message; a raw-log write failure is swallowed inside
`store_raw_message` and does not change what is buffered or what
reaches the structured store. -/
theorem c8_loop_safety (cfg : Config) (meta : MetaCache) (f : Faults)
    (now : Int) (topic : String) (msg : Option (List (String × Json)))
    (s : CollectorState) :
    (∀ e se ev, process_message cfg meta f now topic msg s = .error (e, se, ev) →
       on_message cfg meta f now topic msg s = (se, ev ++ [.caught e])) ∧
    ((on_message cfg meta ⟨false, f.db_ok, f.unexpected⟩ now topic msg s).1.message_buffer =
       (on_message cfg meta ⟨true, f.db_ok, f.unexpected⟩ now topic msg s).1.message_buffer) ∧
    ((on_message cfg meta ⟨false, f.db_ok, f.unexpected⟩ now topic msg s).1.db_rows =
       (on_message cfg meta ⟨true, f.db_ok, f.unexpected⟩ now topic msg s).1.db_rows) ∧
    (∀ rest, run_loop cfg meta (⟨topic, msg, f, now⟩ :: rest) s =
       run_loop cfg meta rest (on_message cfg meta f now topic msg s).1) := by
  have hframe :
      (on_message cfg meta ⟨false, f.db_ok, f.unexpected⟩ now topic msg s).1.message_buffer =
        (on_message cfg meta ⟨true, f.db_ok, f.unexpected⟩ now topic msg s).1.message_buffer ∧
      (on_message cfg meta ⟨false, f.db_ok, f.unexpected⟩ now topic msg s).1.db_rows =
        (on_message cfg meta ⟨true, f.db_ok, f.unexpected⟩ now topic msg s).1.db_rows := by
    cases msg with
    | none => exact ⟨rfl, rfl⟩
    | some p =>
      cases hv : validate p with
      | none => simp [on_message, process_message, hv]
      | some r =>
        cases hu : f.unexpected with
        | some e => simp [on_message, process_message, store_raw_message, hv, hu]
        | none =>
          rw [on_message_valid cfg meta false f.db_ok now topic p s r hv,
              on_message_valid cfg meta true f.db_ok now topic p s r hv]
          simp only [Bool.false_eq_true, if_false, eq_self_iff_true, if_true]
          split_ifs with h
          · have hf := flush_buffer_raw_frame f.db_ok now
              { s with message_buffer := s.message_buffer ++ [(r, check_data_quality meta r)] }
              (s.raw_log ++ [⟨topic, p⟩])
            exact ⟨hf.1.symm, hf.2.symm⟩
          · exact ⟨rfl, rfl⟩
  refine ⟨fun e se ev hpm => ?_, hframe.1, hframe.2, fun rest => rfl⟩
  rw [on_message, hpm]

/-- Witness for C8: an unexpected exception "boom" injected after the
buffer append and raw write is caught; the handler returns the state
as mutated so far, with the exception logged as the final event. -/
theorem c8_loop_safety_witness :
    on_message ⟨100, 50⟩ sampleMeta ⟨true, true, some "boom"⟩ 1 "t"
      (some samplePayload) initState =
      (⟨[(sampleReading, "valid")], 0,
        [⟨"t", samplePayload⟩], []⟩,
       [.validated, .classified "valid", .buffer_append, .raw_write true,
        .caught "boom"]) := by
  exact (c8_loop_safety ⟨100, 50⟩ sampleMeta ⟨true, true, some "boom"⟩ 1 "t"
    (some samplePayload) initState).1 "boom"
    ⟨[(sampleReading, "valid")], 0,
      [⟨"t", samplePayload⟩], []⟩
    [.validated, .classified "valid", .buffer_append, .raw_write true]
    rfl

/-- The first index found in a prefix is the first index in the whole
list. -/
theorem idxOf_append_left {α : Type} [DecidableEq α] (l m : List α) (a : α)
    (i : Nat) (h : idxOf l a = some i) : idxOf (l ++ m) a = some i := by
  induction l generalizing i with
  | nil => simp [idxOf] at h
  | cons x xs ih =>
      by_cases hx : x = a
      · simp only [List.cons_append, idxOf, if_pos hx] at h ⊢
        exact h
      · simp only [List.cons_append, idxOf, if_neg hx, List.append_eq] at h ⊢
        rcases Option.map_eq_some'.mp h with ⟨j, hj, rfl⟩
        rw [ih j hj]
        rfl

/-- When an element does not occur in the prefix, its first index in
the whole list is its first index in the suffix, shifted. -/
theorem idxOf_append_right {α : Type} [DecidableEq α] (l m : List α) (a : α)
    (h : ∀ x ∈ l, x ≠ a) :
    idxOf (l ++ m) a = (idxOf m a).map (· + l.length) := by
  induction l with
  | nil => cases hm : idxOf m a <;> simp [hm]
  | cons x xs ih =>
      have hx : x ≠ a := h x (List.mem_cons_self x xs)
      have hxs : ∀ y ∈ xs, y ≠ a := fun y hy => h y (List.mem_cons_of_mem x hy)
      simp only [List.cons_append, idxOf, if_neg hx, List.append_eq, ih hxs]
      cases hm : idxOf m a with
      | none => rfl
      | some j =>
          simp only [Option.map_some, Option.map_some', Option.some.injEq,
            List.length_cons]
          omega

/-- A first index is a position inside the list. -/
theorem idxOf_lt_length {α : Type} [DecidableEq α] (l : List α) (a : α)
    (i : Nat) (h : idxOf l a = some i) : i < l.length := by
  induction l generalizing i with
  | nil => simp [idxOf] at h
  | cons x xs ih =>
      by_cases hx : x = a
      · simp only [idxOf, if_pos hx, Option.some.injEq] at h
        simp [← h]
      · simp only [idxOf, if_neg hx] at h
        rcases Option.map_eq_some'.mp h with ⟨j, hj, rfl⟩
        have := ih j hj
        simp only [List.length_cons]
        omega

/-- Every element of a list has a first index. -/
theorem idxOf_isSome_of_mem {α : Type} [DecidableEq α] (l : List α) (a : α)
    (h : a ∈ l) : ∃ i, idxOf l a = some i := by
  induction l with
  | nil => simp at h
  | cons x xs ih =>
      by_cases hx : x = a
      · exact ⟨0, by simp [idxOf, hx]⟩
      · have hxs : a ∈ xs := by
          rcases List.mem_cons.mp h with rfl | hm
          · exact absurd rfl hx
          · exact hm
        rcases ih hxs with ⟨j, hj⟩
        exact ⟨j + 1, by simp [idxOf, hx, hj]⟩

/-- If `a` occurs in the prefix, `b` does not occur in the prefix but
occurs in the suffix, then the first occurrence of `a` precedes the
first occurrence of `b`. -/
theorem precedesB_split {α : Type} [DecidableEq α] (l1 l2 : List α) (a b : α)
    (ha : a ∈ l1) (hbl : ∀ x ∈ l1, x ≠ b) (hb : b ∈ l2) :
    precedesB (l1 ++ l2) a b = true := by
  rcases idxOf_isSome_of_mem l1 a ha with ⟨i, hi⟩
  rcases idxOf_isSome_of_mem l2 b hb with ⟨j, hj⟩
  have h1 := idxOf_append_left l1 l2 a i hi
  have h2 := idxOf_append_right l1 l2 b hbl
  rw [hj] at h2
  have hlen := idxOf_lt_length l1 a i hi
  simp only [precedesB, h1, h2, Option.map_some', decide_eq_true_eq]
  omega

/-- The stores-side retry budget is exhausted exactly when every one of
the remaining attempts fails. -/
theorem connect_db_loop_none_iff (ok : Nat → Bool) (n : Nat) :
    ∀ fuel a, (connect_db_loop ok n a fuel = none ↔
      ∀ i, i < fuel → ok (a + i) = false) := by
  intro fuel
  induction fuel with
  | zero => intro a; simp [connect_db_loop]
  | succ f ih =>
      intro a
      simp only [connect_db_loop]
      by_cases hok : ok a
      · rw [if_pos hok]
        constructor
        · intro h; exact absurd h (by simp)
        · intro hall
          exact absurd (hall 0 (Nat.succ_pos f)) (by simpa using hok)
      · rw [if_neg hok]
        rw [Option.map_eq_none', ih (a + 1)]
        constructor
        · intro hall i hi
          cases i with
          | zero => simpa using hok
          | succ j =>
              have hj := hall j (by omega)
              rw [show a + 1 + j = a + (j + 1) by omega] at hj
              exact hj
        · intro hall i hi
          have hj := hall (i + 1) (by omega)
          rw [show a + (i + 1) = a + 1 + i by omega] at hj
          exact hj

/-- The broker-side retry budget, same pattern. -/
theorem setup_mqtt_loop_none_iff (ok : Nat → Bool) :
    ∀ fuel a, (setup_mqtt_loop ok a fuel = none ↔
      ∀ i, i < fuel → ok (a + i) = false) := by
  intro fuel
  induction fuel with
  | zero => intro a; simp [setup_mqtt_loop]
  | succ f ih =>
      intro a
      simp only [setup_mqtt_loop]
      by_cases hok : ok a
      · rw [if_pos hok]
        constructor
        · intro h; exact absurd h (by simp)
        · intro hall
          exact absurd (hall 0 (Nat.succ_pos f)) (by simpa using hok)
      · rw [if_neg hok]
        rw [Option.map_eq_none', ih (a + 1)]
        constructor
        · intro hall i hi
          cases i with
          | zero => simpa using hok
          | succ j =>
              have hj := hall j (by omega)
              rw [show a + 1 + j = a + (j + 1) by omega] at hj
              exact hj
        · intro hall i hi
          have hj := hall (i + 1) (by omega)
          rw [show a + (i + 1) = a + 1 + i by omega] at hj
          exact hj

/-- A successful store connection produces a trace of failed attempts
and fixed 3-second waits, ending with the connection and — immediately
after it — the metadata load. -/
theorem connect_db_loop_shape (ok : Nat → Bool) (n : Nat) :
    ∀ fuel a evs, connect_db_loop ok n a fuel = some evs →
      ∃ pre, evs = pre ++ [StartEvent.db_connected, StartEvent.metadata_loaded n] ∧
        ∀ x ∈ pre, (∃ i, x = StartEvent.db_attempt i) ∨ x = StartEvent.wait 3 := by
  intro fuel
  induction fuel with
  | zero => intro a evs h; simp [connect_db_loop] at h
  | succ f ih =>
      intro a evs h
      simp only [connect_db_loop] at h
      by_cases hok : ok a
      · rw [if_pos hok] at h
        refine ⟨[StartEvent.db_attempt a], ?_, ?_⟩
        · simpa using h.symm
        · intro x hx
          simp only [List.mem_singleton] at hx
          exact Or.inl ⟨a, hx⟩
      · rw [if_neg hok] at h
        rcases Option.map_eq_some'.mp h with ⟨evs', hrec, hevs⟩
        rcases ih (a + 1) evs' hrec with ⟨pre, rfl, hpre⟩
        refine ⟨StartEvent.db_attempt a :: StartEvent.wait 3 :: pre, ?_, ?_⟩
        · rw [← hevs]; rfl
        · intro x hx
          rcases List.mem_cons.mp hx with rfl | hx
          · exact Or.inl ⟨a, rfl⟩
          · rcases List.mem_cons.mp hx with rfl | hx
            · exact Or.inr rfl
            · exact hpre x hx

/-- A successful broker connection produces a trace of failed attempts
and fixed 3-second waits, ending with the connection. -/
theorem setup_mqtt_loop_shape (ok : Nat → Bool) :
    ∀ fuel a evs, setup_mqtt_loop ok a fuel = some evs →
      ∃ pre, evs = pre ++ [StartEvent.mqtt_connected] ∧
        ∀ x ∈ pre, (∃ i, x = StartEvent.mqtt_attempt i) ∨ x = StartEvent.wait 3 := by
  intro fuel
  induction fuel with
  | zero => intro a evs h; simp [setup_mqtt_loop] at h
  | succ f ih =>
      intro a evs h
      simp only [setup_mqtt_loop] at h
      by_cases hok : ok a
      · rw [if_pos hok] at h
        refine ⟨[StartEvent.mqtt_attempt a], ?_, ?_⟩
        · simpa using h.symm
        · intro x hx
          simp only [List.mem_singleton] at hx
          exact Or.inl ⟨a, hx⟩
      · rw [if_neg hok] at h
        rcases Option.map_eq_some'.mp h with ⟨evs', hrec, hevs⟩
        rcases ih (a + 1) evs' hrec with ⟨pre, rfl, hpre⟩
        refine ⟨StartEvent.mqtt_attempt a :: StartEvent.wait 3 :: pre, ?_, ?_⟩
        · rw [← hevs]; rfl
        · intro x hx
          rcases List.mem_cons.mp hx with rfl | hx
          · exact Or.inl ⟨a, rfl⟩
          · rcases List.mem_cons.mp hx with rfl | hx
            · exact Or.inr rfl
            · exact hpre x hx

/-- Claim C6: both connection supervisors retry a failed attempt after
a fixed 3-second delay, up to 10 attempts; exhausting the budget is
exactly when every attempt fails, and the failure then propagates out
of startup (fatal). On a successful store connection the Sensor
Metadata Cache is loaded immediately (directly after `db_connected` in
the startup trace), before the broker connection and before the intake
loop starts accepting messages. -/
theorem c6_supervisors (db_ok mq_ok : Nat → Bool) (n : Nat) :
    (connect_db db_ok n = none ↔ ∀ i, i < 10 → db_ok i = false) ∧
    (setup_mqtt mq_ok = none ↔ ∀ i, i < 10 → mq_ok i = false) ∧
    (connect_db db_ok n = none → run_startup db_ok mq_ok n = none) ∧
    (setup_mqtt mq_ok = none → run_startup db_ok mq_ok n = none) ∧
    (∀ evs, connect_db db_ok n = some evs →
       ∀ t, StartEvent.wait t ∈ evs → t = 3) ∧
    (∀ evs, run_startup db_ok mq_ok n = some evs →
       precedesB evs StartEvent.db_connected (StartEvent.metadata_loaded n) = true ∧
       precedesB evs (StartEvent.metadata_loaded n) StartEvent.mqtt_connected = true ∧
       precedesB evs (StartEvent.metadata_loaded n) StartEvent.intake_started = true) := by
  refine ⟨?_, ?_, ?_, ?_, ?_, ?_⟩
  · simpa [connect_db] using connect_db_loop_none_iff db_ok n 10 0
  · simpa [setup_mqtt] using setup_mqtt_loop_none_iff mq_ok 10 0
  · intro h
    unfold run_startup
    rw [h]
  · intro h
    unfold run_startup
    cases hdb : connect_db db_ok n with
    | none => rfl
    | some ev1 => rw [h]
  · intro evs heq t ht
    rcases connect_db_loop_shape db_ok n 10 0 evs heq with ⟨pre, rfl, hpre⟩
    rcases List.mem_append.mp ht with ht | ht
    · rcases hpre _ ht with ⟨i, hcontra⟩ | hw
      · exact absurd hcontra (by simp)
      · injection hw with hw3
    · rcases List.mem_cons.mp ht with hcontra | ht
      · exact absurd hcontra (by simp)
      · rcases List.mem_cons.mp ht with hcontra | ht
        · exact absurd hcontra (by simp)
        · simp at ht
  · intro evs heq
    unfold run_startup at heq
    cases hdb : connect_db db_ok n with
    | none => rw [hdb] at heq; exact absurd heq (by simp)
    | some ev1 =>
      cases hmq : setup_mqtt mq_ok with
      | none => rw [hdb, hmq] at heq; exact absurd heq (by simp)
      | some ev2 =>
        rw [hdb, hmq] at heq
        have hevs : evs = ev1 ++ ev2 ++ [StartEvent.intake_started] := by
          simpa using heq.symm
        subst hevs
        rcases connect_db_loop_shape db_ok n 10 0 ev1 hdb with ⟨pre1, rfl, hpre1⟩
        rcases setup_mqtt_loop_shape mq_ok 10 0 ev2 hmq with ⟨pre2, rfl, hpre2⟩
        refine ⟨?_, ?_, ?_⟩
        · have hre : (pre1 ++ [StartEvent.db_connected, StartEvent.metadata_loaded n]) ++
              (pre2 ++ [StartEvent.mqtt_connected]) ++ [StartEvent.intake_started] =
              (pre1 ++ [StartEvent.db_connected]) ++
                (StartEvent.metadata_loaded n ::
                  ((pre2 ++ [StartEvent.mqtt_connected]) ++ [StartEvent.intake_started])) := by
            simp
          rw [hre]
          refine precedesB_split _ _ _ _ (by simp) ?_ (by simp)
          intro x hx
          rcases List.mem_append.mp hx with hx | hx
          · rcases hpre1 x hx with ⟨i, rfl⟩ | rfl <;> simp
          · simp only [List.mem_singleton] at hx
            subst hx
            simp
        · have hre : (pre1 ++ [StartEvent.db_connected, StartEvent.metadata_loaded n]) ++
              (pre2 ++ [StartEvent.mqtt_connected]) ++ [StartEvent.intake_started] =
              (pre1 ++ [StartEvent.db_connected, StartEvent.metadata_loaded n]) ++
                ((pre2 ++ [StartEvent.mqtt_connected]) ++ [StartEvent.intake_started]) := by
            simp
          rw [hre]
          refine precedesB_split _ _ _ _ (by simp) ?_ (by simp)
          intro x hx
          rcases List.mem_append.mp hx with hx | hx
          · rcases hpre1 x hx with ⟨i, rfl⟩ | rfl <;> simp
          · rcases List.mem_cons.mp hx with rfl | hx
            · simp
            · rcases List.mem_cons.mp hx with rfl | hx
              · simp
              · simp at hx
        · have hre : (pre1 ++ [StartEvent.db_connected, StartEvent.metadata_loaded n]) ++
              (pre2 ++ [StartEvent.mqtt_connected]) ++ [StartEvent.intake_started] =
              (pre1 ++ [StartEvent.db_connected, StartEvent.metadata_loaded n]) ++
                ((pre2 ++ [StartEvent.mqtt_connected]) ++ [StartEvent.intake_started]) := by
            simp
          rw [hre]
          refine precedesB_split _ _ _ _ (by simp) ?_ (by simp)
          intro x hx
          rcases List.mem_append.mp hx with hx | hx
          · rcases hpre1 x hx with ⟨i, rfl⟩ | rfl <;> simp
          · rcases List.mem_cons.mp hx with rfl | hx
            · simp
            · rcases List.mem_cons.mp hx with rfl | hx
              · simp
              · simp at hx

/-- Witness for C6: with every store attempt failing the supervisor
gives up (fatal for startup); with the store up on attempt 3 and the
broker up at once, the startup trace loads the metadata right after
`db_connected` and before the broker connect and the intake loop. -/
theorem c6_supervisors_witness :
    connect_db (fun _ => false) 5 = none ∧
    run_startup (fun _ => false) (fun _ => true) 5 = none ∧
    precedesB [StartEvent.db_attempt 0, StartEvent.wait 3, StartEvent.db_attempt 1,
        StartEvent.wait 3, StartEvent.db_attempt 2, StartEvent.wait 3,
        StartEvent.db_attempt 3, StartEvent.db_connected, StartEvent.metadata_loaded 5,
        StartEvent.mqtt_attempt 0, StartEvent.mqtt_connected, StartEvent.intake_started]
      (StartEvent.metadata_loaded 5) StartEvent.mqtt_connected = true := by
  have h1 := c6_supervisors (fun _ => false) (fun _ => true) 5
  have h2 := c6_supervisors (fun i => i == 3) (fun _ => true) 5
  have hnone : connect_db (fun _ => false) 5 = none := h1.1.mpr (fun i _ => rfl)
  refine ⟨hnone, h1.2.2.1 hnone, ?_⟩
  exact (h2.2.2.2.2.2
    [StartEvent.db_attempt 0, StartEvent.wait 3, StartEvent.db_attempt 1,
     StartEvent.wait 3, StartEvent.db_attempt 2, StartEvent.wait 3,
     StartEvent.db_attempt 3, StartEvent.db_connected, StartEvent.metadata_loaded 5,
     StartEvent.mqtt_attempt 0, StartEvent.mqtt_connected, StartEvent.intake_started]
    (by decide)).2.1
